import Mathlib

/-!
# RusTiny test runner — shallow embedding of `script/test.py`

This file embeds the expectation/diagnostic matching engine of the RusTiny
test runner: the `CompilerError` record with its equality and hash, the
output parser `parse_errors`, the annotation parser `parse_expectations`,
the skip check `test_is_skip`, the per-fixture case evaluators of the
`compile-fail`, `run-pass` and emit (`ir`/`asm`) suites, and the session
accounting that decides the process exit status.

Python strings are modelled as Lean `String`/`List Char`.
`str.splitlines` (applied by `parse_errors` to the captured output) is
modelled over the full Python line-boundary set (`\n`, `\r`, `\r\n`,
`\v`, `\f`, `\x1c`-`\x1e`, `\x85`, U+2028, U+2029), while the
file-based `readlines` of `parse_expectations` and `test_is_skip` splits
only on `\n`, `\r` and `\r\n` (universal newlines); `str.strip` is
modelled over its ASCII whitespace.  The two regular
expressions of each parser are deterministic, so they are embedded as
explicit character-list matchers; the leading greedy `.*` of the
annotation regexes is embedded as "take the last position at which the
anchored remainder matches".  Subprocess invocation is abstracted as a
`Unit → CompileResult` argument of the evaluators.
-/

/-! ## Python string primitives -/

/-- The whitespace characters removed by Python `str.strip()`
(restricted to ASCII). -/
def isPyWs (c : Char) : Bool :=
  c = ' ' || c = '\t' || c = '\n' || c = '\r' || c = '\x0b' || c = '\x0c'

/-- `str.strip()` on a character list: drop whitespace from both ends. -/
def pyStripList (cs : List Char) : List Char :=
  ((cs.dropWhile isPyWs).reverse.dropWhile isPyWs).reverse

/-- Python `str.strip()`. -/
def pyStrip (s : String) : String :=
  (pyStripList s.toList).asString

/-- The line-boundary characters of Python `str.splitlines()`:
`\n`, `\r`, `\v`, `\f`, the ASCII separators `\x1c`-`\x1e`, NEL `\x85`,
and the Unicode line/paragraph separators U+2028/U+2029 (`\r\n` is the
one two-character boundary, handled by the splitter itself). -/
def isPyLineBreak (c : Char) : Bool :=
  c = '\n' || c = '\r' || c = '\x0b' || c = '\x0c' || c = '\x1c' ||
    c = '\x1d' || c = '\x1e' || c = '\x85' || c = '\u2028' || c = '\u2029'

/-- Worker for `pySplitlines`: accumulates the current line (reversed);
`sawCR` records that the previous character was a line-ending `\r`, so
that an immediately following `\n` is part of the same `\r\n` break. -/
def splitlinesGo : Bool → List Char → List Char → List String
  | _, [], acc => if acc.isEmpty then [] else [acc.reverse.asString]
  | sawCR, c :: rest, acc =>
    if sawCR && c = '\n' then splitlinesGo false rest acc
    else if c = '\r' then acc.reverse.asString :: splitlinesGo true rest []
    else if isPyLineBreak c then acc.reverse.asString :: splitlinesGo false rest []
    else splitlinesGo false rest (c :: acc)

/-- Python `str.splitlines()` over the full set of Python line
boundaries: the separators are not kept and a trailing line break does
not create a trailing empty line. -/
def pySplitlines (s : String) : List String :=
  splitlinesGo false s.toList []

/-- Worker for `pyReadLines`; only `\n`, `\r` and `\r\n` end a line, as
in text-mode file reading with universal newlines. -/
def readLinesGo : Bool → List Char → List Char → List String
  | _, [], acc => if acc.isEmpty then [] else [acc.reverse.asString]
  | sawCR, c :: rest, acc =>
    if sawCR && c = '\n' then readLinesGo false rest acc
    else if c = '\n' then acc.reverse.asString :: readLinesGo false rest []
    else if c = '\r' then acc.reverse.asString :: readLinesGo true rest []
    else readLinesGo false rest (c :: acc)

/-- The physical lines of a text file as `f.readlines()` yields them
(modulo the kept terminators, which the parsers' regexes never match):
text mode with universal newlines splits on `\n`, `\r` and `\r\n` only
— unlike `str.splitlines`, not on `\v`, `\f` and the other Unicode
boundaries. -/
def pyReadLines (s : String) : List String :=
  readLinesGo false s.toList []

/-! ## The `CompilerError` record (`test.py` lines 63-82)

`line` and `col` are `Option Nat`: the regex captures are `\d+`, so the
parsed integers are non-negative; a missing capture group leaves the field
`None`. -/

structure CompilerError where
  error : String
  line : Option Nat
  col : Option Nat
deriving DecidableEq

/-- `CompilerError.__eq__`: field-wise comparison of `error`, `line`, `col`. -/
def CompilerError.pyEq (a b : CompilerError) : Bool :=
  a.error == b.error && a.line == b.line && a.col == b.col

/-- Code of an optional number inside the hashed tuple. -/
def optNatCode : Option Nat → Nat
  | none => 0
  | some n => n + 1

/-- A deterministic code of a string (stands for Python's opaque string
hash inside the hashed tuple). -/
def strCode (s : String) : Nat :=
  s.toList.foldl (fun a c => a * 1114112 + c.toNat) 0

/-- `CompilerError.__hash__`: `hash((self.error, self.line, self.col))`,
modelled as a deterministic function of exactly those three fields. -/
def CompilerError.pyHash (e : CompilerError) : Nat :=
  (strCode e.error * 1000003 + optNatCode e.line) * 1000003 + optNatCode e.col

/-- Python truthiness of an optional integer: `None` and `0` are falsy. -/
def pyTruthy : Option Nat → Bool
  | none => false
  | some n => n != 0

/-- Decimal digit character for `d < 10`. -/
def decDigit (d : Nat) : Char := Char.ofNat (48 + d)

/-- Fuel-driven digit rendering; the fuel only needs to cover the number
of decimal digits, and recursion on it keeps the function structurally
recursive. -/
def natToDecAux : Nat → Nat → List Char
  | _, 0 => []
  | n, fuel + 1 =>
    if n < 10 then [decDigit n]
    else natToDecAux (n / 10) fuel ++ [decDigit (n % 10)]

/-- Decimal rendering of a natural number (the digits of `'{}'.format`),
as a character list. -/
def natToDecList (n : Nat) : List Char :=
  natToDecAux n (n + 1)

/-- `'{}'.format(n)` for a natural number. -/
def natToDec (n : Nat) : String := (natToDecList n).asString

/-- `CompilerError.__repr__`: the positioned form is used only when *both*
`line` and `col` are truthy (present and non-zero) — Python's
`if self.line and self.col`. -/
def CompilerError.reprStr (e : CompilerError) : String :=
  match e.line, e.col with
  | some l, some c =>
    if l ≠ 0 ∧ c ≠ 0 then
      "Error in line " ++ natToDec l ++ ":" ++ natToDec c ++ ": " ++ e.error
    else "Error: " ++ e.error
  | _, _ => "Error: " ++ e.error

/-- Result of one compiler invocation (`CompileResult` namedtuple). -/
structure CompileResult where
  output : String
  exit_code : Int
deriving DecidableEq

/-! ## Regex models -/

/-- Maximal prefix of decimal digits and the remainder (`\d+` with maximal
munch, which matches the regex because `\d` and the following literal `:`
are disjoint). -/
def takeDigits : List Char → List Char × List Char
  | [] => ([], [])
  | c :: rest =>
    if c.isDigit then
      let p := takeDigits rest
      (c :: p.1, p.2)
    else ([], c :: rest)

/-- Numeric value of a digit character. -/
def digitVal (c : Char) : Nat := c.toNat - 48

/-- `int()` of a string of decimal digits. -/
def digitsToNat (ds : List Char) : Nat :=
  ds.foldl (fun a c => a * 10 + digitVal c) 0

/-- Drop an exact literal prefix, returning the remainder. -/
def dropLit : List Char → List Char → Option (List Char)
  | [], cs => some cs
  | _ :: _, [] => none
  | p :: ps, c :: cs => if p = c then dropLit ps cs else none

/-- After the literal part of a positioned pattern: `<L>:<C>): ?<msg>`
with `close = true` requiring the `)` of the annotation form, or
`<L>:<C>: ?<msg>` with `close = false` (output form).  Returns the two
captured numbers and the message capture. -/
def matchNumsMsg (close : Bool) (cs : List Char) : Option (Nat × Nat × String) :=
  let p1 := takeDigits cs
  if p1.1.isEmpty then none
  else
    match p1.2 with
    | ':' :: cs2 =>
      let p2 := takeDigits cs2
      if p2.1.isEmpty then none
      else
        let finish : List Char → Option (Nat × Nat × String) := fun cs3 =>
          match cs3 with
          | ':' :: cs4 =>
            let msg := match cs4 with
                       | ' ' :: cs5 => cs5
                       | _ => cs4
            some (digitsToNat p1.1, digitsToNat p2.1, msg.asString)
          | _ => none
        if close then
          match p2.2 with
          | ')' :: cs3 => finish cs3
          | _ => none
        else finish p2.2
    | _ => none

/-- `re.match('Error in line (?P<line>\d+):(?P<col>\d+): ?(?P<error>.*)', line)`. -/
def matchErrorPositioned (cs : List Char) : Option (Nat × Nat × String) :=
  match dropLit "Error in line ".toList cs with
  | none => none
  | some rest => matchNumsMsg false rest

/-- `re.match('Error: (?P<error>.*)', line)`. -/
def matchErrorUnpositioned (cs : List Char) : Option String :=
  match dropLit "Error: ".toList cs with
  | none => none
  | some rest => some rest.asString

/-- The anchored remainder of `.*//! ERROR\((\d+):(\d+)\): ?(.*)` at one
position of the line. -/
def matchExpectPositionedHere (cs : List Char) : Option (Nat × Nat × String) :=
  match dropLit "//! ERROR(".toList cs with
  | none => none
  | some rest => matchNumsMsg true rest

/-- The anchored remainder of `.*//! ERROR: (.*)` at one position. -/
def matchExpectUnpositionedHere (cs : List Char) : Option String :=
  match dropLit "//! ERROR: ".toList cs with
  | none => none
  | some rest => some rest.asString

/-- The greedy leading `.*`: the match used by `re.match` starts at the
*last* position at which the anchored remainder matches. -/
def findLast {α : Type} (m : List Char → Option α) : List Char → Option α
  | [] => m []
  | c :: rest => (findLast m rest).orElse (fun _ => m (c :: rest))

/-! ## `parse_errors` (`test.py` lines 129-147) -/

/-- Classification of one output line, positioned form first
(mirrors the `continue` cascade of `parse_errors`). -/
def outLineError (l : String) : Option CompilerError :=
  match matchErrorPositioned l.toList with
  | some r => some ⟨r.2.2, some r.1, some r.2.1⟩
  | none =>
    match matchErrorUnpositioned l.toList with
    | some msg => some ⟨msg, none, none⟩
    | none => none

/-- The loop of `parse_errors` over the split lines: diagnostics are
appended to `errors`, unmatched lines to `stderr`, both in order. -/
def parseErrorsLines : List String → List CompilerError × List String
  | [] => ([], [])
  | l :: rest =>
    let p := parseErrorsLines rest
    match matchErrorPositioned l.toList with
    | some r => (⟨r.2.2, some r.1, some r.2.1⟩ :: p.1, p.2)
    | none =>
      match matchErrorUnpositioned l.toList with
      | some msg => (⟨msg, none, none⟩ :: p.1, p.2)
      | none => (p.1, l :: p.2)

/-- `parse_errors(output)`: split the captured output into lines and
classify every line. -/
def parse_errors (output : String) : List CompilerError × List String :=
  parseErrorsLines (pySplitlines output)

/-! ## `parse_expectations` (`test.py` lines 150-166) -/

/-- Expectation extracted from one fixture line: the positioned regex is
tried first, each with its greedy leading `.*`. -/
def expectOfLine (l : String) : Option CompilerError :=
  match findLast matchExpectPositionedHere l.toList with
  | some r => some ⟨r.2.2, some r.1, some r.2.1⟩
  | none =>
    match findLast matchExpectUnpositionedHere l.toList with
    | some msg => some ⟨msg, none, none⟩
    | none => none

/-- The loop of `parse_expectations` over the fixture's lines. -/
def parseExpectationsLines : List String → List CompilerError
  | [] => []
  | l :: rest =>
    match findLast matchExpectPositionedHere l.toList with
    | some r => ⟨r.2.2, some r.1, some r.2.1⟩ :: parseExpectationsLines rest
    | none =>
      match findLast matchExpectUnpositionedHere l.toList with
      | some msg => ⟨msg, none, none⟩ :: parseExpectationsLines rest
      | none => parseExpectationsLines rest

/-- `parse_expectations(filename)`, applied to the fixture's text. -/
def parse_expectations (text : String) : List CompilerError :=
  parseExpectationsLines (pyReadLines text)

/-- Python `sep.join(pieces)`. -/
def pyJoin (sep : String) : List String → String
  | [] => ""
  | [s] => s
  | s :: t :: rest => s ++ sep ++ pyJoin sep (t :: rest)

/-! ## Skip check and case evaluators -/

/-- `test_is_skip`: some line of the fixture strips to exactly `//! SKIP`. -/
def test_is_skip (text : String) : Bool :=
  (pyReadLines text).any (fun l => pyStrip l == "//! SKIP")

/-- Verdict of one `compile-fail` fixture.  A failure carries the fields
of the `FailedTest` tuple that this suite fills: the `unexpected` and
`missing` diagnostic sets (absent on the exit-code failures), the output
text and the failure message. -/
inductive CFVerdict
  | skipped
  | success
  | failure (unexpected missing : Option (Finset CompilerError))
            (output : String) (msg : Option String)
deriving DecidableEq

/-- Body of the `tests_compile_fail` loop for one fixture.  The compiler
invocation is abstracted as `compile`; it is consulted only on the
non-skip path, after `parse_expectations`. -/
def tests_compile_fail_case (text : String) (compile : Unit → CompileResult) :
    CFVerdict :=
  if test_is_skip text then .skipped
  else
    let expectations := parse_expectations text
    let cresult := compile ()
    if cresult.exit_code = 0 then
      .failure none none cresult.output (some "compiling succeeded")
    else if cresult.exit_code = 101 then
      .failure none none cresult.output (some "compiler panicked")
    else
      let p := parse_errors cresult.output
      let unexpected := p.1.toFinset \ expectations.toFinset
      let missing := expectations.toFinset \ p.1.toFinset
      if unexpected = ∅ ∧ missing = ∅ then .success
      else .failure (some unexpected) (some missing)
             (pyJoin "\n" p.2) none

/-- Verdict of one `run-pass` fixture: a failure carries the `errors`
list as `unexpected` and the joined residual lines. -/
inductive RPVerdict
  | skipped
  | success
  | failure (unexpected : List CompilerError) (output : String)
deriving DecidableEq

/-- Body of the `tests_run_pass` loop for one fixture. -/
def tests_run_pass_case (text : String) (compile : Unit → CompileResult) :
    RPVerdict :=
  if test_is_skip text then .skipped
  else
    let cresult := compile ()
    let p := parse_errors cresult.output
    if p.1 = [] ∧ cresult.exit_code = 0 then .success
    else .failure p.1 (pyJoin "\n" p.2)

/-- Verdict of one emit (`ir`/`asm`) fixture: a nonzero exit is the
`compiling failed` failure carrying the raw output; a golden-file mismatch
carries both trimmed texts (the colored report formatting is elided). -/
inductive EmitVerdict
  | skipped
  | success
  | failureCompile (output : String)
  | failureMismatch (expected generated : String)
deriving DecidableEq

/-- Body of the `tests_emit` loop for one fixture; `goldenText` is the
contents of the companion golden file. -/
def tests_emit_case (text goldenText : String) (compile : Unit → CompileResult) :
    EmitVerdict :=
  if test_is_skip text then .skipped
  else
    let cresult := compile ()
    if cresult.exit_code ≠ 0 then .failureCompile cresult.output
    else
      let generated := pyStrip cresult.output
      let expected := pyStrip goldenText
      if generated = expected then .success
      else .failureMismatch expected generated

/-! ## Session accounting (`Session`, `__main__`) -/

/-- The outcome kind recorded by `Session.success` / `Session.failure` /
`Session.skip` for one fixture. -/
inductive VerdictKind
  | passed
  | failed
  | skippedK
deriving DecidableEq

/-- The three counters of the `Session` class (the failure list, used only
for report rendering, is elided). -/
structure Session where
  passed : Nat
  failed : Nat
  skipped : Nat
deriving DecidableEq

/-- Record one fixture's outcome, incrementing the matching counter. -/
def Session.record (s : Session) : VerdictKind → Session
  | .passed => { s with passed := s.passed + 1 }
  | .failed => { s with failed := s.failed + 1 }
  | .skippedK => { s with skipped := s.skipped + 1 }

/-- The session state after recording a run's outcomes in order, starting
from the fresh `Session` of `__init__`. -/
def runSession (vs : List VerdictKind) : Session :=
  vs.foldl Session.record ⟨0, 0, 0⟩

/-- The process exit status of `__main__`: `sys.exit(1)` iff
`session.failed > 0`, otherwise the interpreter exits with 0. -/
def mainExitCode (vs : List VerdictKind) : Nat :=
  if (runSession vs).failed > 0 then 1 else 0

/-! ## Round-trip vocabulary

An interleaving of diagnostics and residual lines is a list of
`CompilerError ⊕ String`; rendering formats each diagnostic with
`__repr__` and keeps residual lines as they are. -/

/-- One rendered line of an interleaving. -/
def renderItem : CompilerError ⊕ String → String
  | .inl d => d.reprStr
  | .inr s => s

/-- The diagnostic of an interleaving item, if any. -/
def itemDiag : CompilerError ⊕ String → Option CompilerError
  | .inl d => some d
  | .inr _ => none

/-- The residual line of an interleaving item, if any. -/
def itemResid : CompilerError ⊕ String → Option String
  | .inl _ => none
  | .inr s => some s

/-- A single-line text: contains no character on which Python
`str.splitlines` breaks. -/
def noNL (s : String) : Prop := ∀ c ∈ s.toList, isPyLineBreak c = false

instance (s : String) : Decidable (noNL s) :=
  inferInstanceAs (Decidable (∀ c ∈ s.toList, isPyLineBreak c = false))

/-- A diagnostic that `__repr__` can format faithfully: its message is a
single line and its position fields are either both truthy or both
absent. -/
def goodDiag (d : CompilerError) : Prop :=
  ((pyTruthy d.line = true ∧ pyTruthy d.col = true) ∨
    (d.line = none ∧ d.col = none)) ∧ noNL d.error

instance (d : CompilerError) : Decidable (goodDiag d) :=
  inferInstanceAs (Decidable (_ ∧ _))

example : pySplitlines "a\nb" = ["a", "b"] := by decide
example : pySplitlines "a\n" = ["a"] := by decide
example : pySplitlines "" = [] := by decide
example : parse_errors "Error in line 3:5: boom\nnote\nError: bad" =
    ([⟨"boom", some 3, some 5⟩, ⟨"bad", none, none⟩], ["note"]) := by decide
example : parse_expectations "fn f()\nx //! ERROR(3:5): boom\n//! ERROR: bad" =
    [⟨"boom", some 3, some 5⟩, ⟨"bad", none, none⟩] := by decide
example : test_is_skip "  //! SKIP  \nfn" = true := by decide
example : test_is_skip "x //! SKIP" = false := by decide
example : pyStrip "  \n a b \t " = "a b" := by decide

/-! # Theorems -/

/-! ## Generic helper lemmas -/

theorem toList_append (a b : String) : (a ++ b).toList = a.toList ++ b.toList := by
  obtain ⟨la⟩ := a
  obtain ⟨lb⟩ := b
  rfl

theorem dropLit_self_append (lit rest : List Char) :
    dropLit lit (lit ++ rest) = some rest := by
  induction lit with
  | nil => rfl
  | cons c cs ih => simp [dropLit, ih]

theorem dropLit_mismatch (com : List Char) (x y : Char) (p q : List Char)
    (hxy : x ≠ y) : dropLit (com ++ x :: p) (com ++ y :: q) = none := by
  induction com with
  | nil => simp [dropLit, hxy]
  | cons c cs ih => simp [dropLit, ih]

/-! ## C2: equality and hash of `CompilerError` -/

/-- C2: two diagnostics are `__eq__`-equal iff their `error`, `line` and
`col` fields are pairwise equal (equivalently, iff they are the same
record), and `__hash__` agrees on `__eq__`-equal diagnostics. -/
theorem compiler_error_eq_hash_spec (d1 d2 : CompilerError) :
    (d1.pyEq d2 = true ↔
      (d1.error = d2.error ∧ d1.line = d2.line ∧ d1.col = d2.col))
    ∧ (d1.pyEq d2 = true ↔ d1 = d2)
    ∧ (d1.pyEq d2 = true → d1.pyHash = d2.pyHash) := by
  obtain ⟨e1, l1, c1⟩ := d1
  obtain ⟨e2, l2, c2⟩ := d2
  refine ⟨?_, ?_, ?_⟩
  · simp [CompilerError.pyEq, and_assoc]
  · simp [CompilerError.pyEq, CompilerError.mk.injEq, and_assoc]
  · intro h
    simp only [CompilerError.pyEq, Bool.and_eq_true, beq_iff_eq] at h
    simp [CompilerError.pyHash, h.1.1, h.1.2, h.2]

theorem compiler_error_eq_hash_spec_witness :
    CompilerError.pyEq ⟨"m", some 1, none⟩ ⟨"m", some 1, none⟩ = true
    ∧ CompilerError.pyHash ⟨"m", some 1, none⟩ =
        CompilerError.pyHash ⟨"m", some 1, none⟩ := by
  have h := compiler_error_eq_hash_spec ⟨"m", some 1, none⟩ ⟨"m", some 1, none⟩
  exact ⟨h.1.mpr ⟨rfl, rfl, rfl⟩, h.2.2 (h.1.mpr ⟨rfl, rfl, rfl⟩)⟩

/-! ## C9: process exit status -/

theorem foldl_record_failed (vs : List VerdictKind) (s : Session) :
    (vs.foldl Session.record s).failed =
      s.failed + vs.countP (fun v => v == VerdictKind.failed) := by
  induction vs generalizing s with
  | nil => simp
  | cons v rest ih =>
    cases v <;> (simp [Session.record, ih, List.countP_cons]; try omega)

/-- C9: after recording all fixtures' outcomes, the process exit status is
nonzero iff some fixture failed; runs whose outcomes are only passes and
skips exit with 0. -/
theorem main_exit_code_spec (vs : List VerdictKind) :
    (mainExitCode vs ≠ 0 ↔ VerdictKind.failed ∈ vs)
    ∧ ((∀ v ∈ vs, v ≠ VerdictKind.failed) → mainExitCode vs = 0) := by
  have hcount : (runSession vs).failed =
      vs.countP (fun v => v == VerdictKind.failed) := by
    simpa using foldl_record_failed vs ⟨0, 0, 0⟩
  have hpos : 0 < vs.countP (fun v => v == VerdictKind.failed) ↔
      VerdictKind.failed ∈ vs := by
    rw [List.countP_pos_iff]
    constructor
    · rintro ⟨a, ha, hq⟩
      have : a = VerdictKind.failed := by simpa using hq
      exact this ▸ ha
    · intro h
      exact ⟨_, h, by simp⟩
  constructor
  · simp only [mainExitCode, hcount]
    by_cases h : 0 < vs.countP (fun v => v == VerdictKind.failed)
    · simp only [h, if_true]
      simpa using hpos.mp h
    · simp only [h, if_false]
      simp only [ne_eq, not_true_eq_false, false_iff]
      exact fun hm => h (hpos.mpr hm)
  · intro h
    simp only [mainExitCode, hcount]
    have hnm : ¬ VerdictKind.failed ∈ vs := fun hm => (h _ hm) rfl
    have : ¬ 0 < vs.countP (fun v => v == VerdictKind.failed) :=
      fun hh => hnm (hpos.mp hh)
    simp [this]

theorem main_exit_code_spec_witness :
    mainExitCode [VerdictKind.skippedK, VerdictKind.failed] ≠ 0
    ∧ mainExitCode [VerdictKind.skippedK, VerdictKind.passed] = 0 :=
  ⟨(main_exit_code_spec [VerdictKind.skippedK, VerdictKind.failed]).1.mpr
      (by simp),
   (main_exit_code_spec [VerdictKind.skippedK, VerdictKind.passed]).2
      (by decide)⟩

/-! ## C3: total classification of compiler output lines -/

theorem parseErrorsLines_eq (ls : List String) :
    parseErrorsLines ls =
      (ls.filterMap outLineError,
       ls.filter (fun l => (outLineError l).isNone)) := by
  induction ls with
  | nil => rfl
  | cons l rest ih =>
    cases hm : matchErrorPositioned l.toList with
    | some r =>
      have hm2 : matchErrorPositioned l.data = some r := hm
      simp [parseErrorsLines, outLineError, hm, hm2, ih, List.filter_cons]
    | none =>
      have hm2 : matchErrorPositioned l.data = none := hm
      cases hu : matchErrorUnpositioned l.toList with
      | some msg =>
        have hu2 : matchErrorUnpositioned l.data = some msg := hu
        simp [parseErrorsLines, outLineError, hm, hm2, hu, hu2, ih,
          List.filter_cons]
      | none =>
        have hu2 : matchErrorUnpositioned l.data = none := hu
        simp [parseErrorsLines, outLineError, hm, hm2, hu, hu2, ih,
          List.filter_cons]

theorem length_filterMap_add_length_filter (ls : List String) :
    (ls.filterMap outLineError).length +
      (ls.filter (fun l => (outLineError l).isNone)).length = ls.length := by
  induction ls with
  | nil => rfl
  | cons l rest ih =>
    cases hm : outLineError l
    · simp only [List.filterMap_cons, List.filter_cons, hm, Option.isNone_none]
      simp only [if_true, List.length_cons]
      omega
    · simp only [List.filterMap_cons, List.filter_cons, hm, Option.isNone_some]
      simp only [Bool.false_eq_true, if_false, List.length_cons]
      omega

/-- C3: `parse_errors` classifies every line of the output: the
diagnostics are exactly the lines recognized by `outLineError` (which
tries the positioned form first), the residual is exactly the unmatched
lines in their original order, and no line is dropped (the lengths add up
to the number of lines). -/
theorem parse_errors_total_classification (output : String) :
    (parse_errors output).1 = (pySplitlines output).filterMap outLineError
    ∧ (parse_errors output).2 =
        (pySplitlines output).filter (fun l => (outLineError l).isNone)
    ∧ (parse_errors output).1.length + (parse_errors output).2.length =
        (pySplitlines output).length := by
  have h := parseErrorsLines_eq (pySplitlines output)
  refine ⟨by simp [parse_errors, h], by simp [parse_errors, h], ?_⟩
  simp only [parse_errors, h]
  exact length_filterMap_add_length_filter (pySplitlines output)

/-! ## C10: positions are both present or both absent -/

theorem parseErrorsLines_position (ls : List String) :
    ∀ d ∈ (parseErrorsLines ls).1,
      (d.line.isSome = true ∧ d.col.isSome = true) ∨
        (d.line = none ∧ d.col = none) := by
  induction ls with
  | nil => simp [parseErrorsLines]
  | cons l rest ih =>
    cases hm : matchErrorPositioned l.toList with
    | some r =>
      simp only [parseErrorsLines, hm]
      intro d hd
      rcases List.mem_cons.mp hd with h | h
      · subst h; left; exact ⟨rfl, rfl⟩
      · exact ih d h
    | none =>
      cases hu : matchErrorUnpositioned l.toList with
      | some msg =>
        simp only [parseErrorsLines, hm, hu]
        intro d hd
        rcases List.mem_cons.mp hd with h | h
        · subst h; right; exact ⟨rfl, rfl⟩
        · exact ih d h
      | none =>
        simp only [parseErrorsLines, hm, hu]
        exact ih

theorem parseExpectationsLines_position (ls : List String) :
    ∀ d ∈ parseExpectationsLines ls,
      (d.line.isSome = true ∧ d.col.isSome = true) ∨
        (d.line = none ∧ d.col = none) := by
  induction ls with
  | nil => simp [parseExpectationsLines]
  | cons l rest ih =>
    cases hm : findLast matchExpectPositionedHere l.toList with
    | some r =>
      simp only [parseExpectationsLines, hm]
      intro d hd
      rcases List.mem_cons.mp hd with h | h
      · subst h; left; exact ⟨rfl, rfl⟩
      · exact ih d h
    | none =>
      cases hu : findLast matchExpectUnpositionedHere l.toList with
      | some msg =>
        simp only [parseExpectationsLines, hm, hu]
        intro d hd
        rcases List.mem_cons.mp hd with h | h
        · subst h; right; exact ⟨rfl, rfl⟩
        · exact ih d h
      | none =>
        simp only [parseExpectationsLines, hm, hu]
        exact ih

/-- C10: every diagnostic produced by the output parser or the annotation
parser has `line` and `col` either both present or both absent; a mixed
record is never produced. -/
theorem diagnostics_position_invariant (output text : String) :
    (∀ d ∈ (parse_errors output).1,
      (d.line.isSome = true ∧ d.col.isSome = true) ∨
        (d.line = none ∧ d.col = none))
    ∧ (∀ d ∈ parse_expectations text,
      (d.line.isSome = true ∧ d.col.isSome = true) ∨
        (d.line = none ∧ d.col = none)) :=
  ⟨parseErrorsLines_position _, parseExpectationsLines_position _⟩

theorem diagnostics_position_invariant_witness :
    ((CompilerError.mk "boom" (some 3) (some 5)).line.isSome = true ∧
      (CompilerError.mk "boom" (some 3) (some 5)).col.isSome = true) ∨
    ((CompilerError.mk "boom" (some 3) (some 5)).line = none ∧
      (CompilerError.mk "boom" (some 3) (some 5)).col = none) :=
  (diagnostics_position_invariant "Error in line 3:5: boom" "").1
    ⟨"boom", some 3, some 5⟩ (by decide)

/-! ## Digit and matcher computation lemmas -/

theorem decDigit_isDigit (d : Nat) (h : d < 10) : (decDigit d).isDigit = true := by
  interval_cases d <;> decide

theorem digitVal_decDigit (d : Nat) (h : d < 10) : digitVal (decDigit d) = d := by
  interval_cases d <;> decide

theorem digit_ne_slash (c : Char) (h : c.isDigit = true) : c ≠ '/' := by
  intro he
  subst he
  simp [Char.isDigit] at h

theorem natToDecAux_spec (fuel : Nat) : ∀ n, n < fuel →
    (∀ c ∈ natToDecAux n fuel, c.isDigit = true) ∧ natToDecAux n fuel ≠ [] ∧
      digitsToNat (natToDecAux n fuel) = n := by
  induction fuel with
  | zero => intro n h; omega
  | succ f ih =>
    intro n h
    by_cases h10 : n < 10
    · simp only [natToDecAux, if_pos h10]
      refine ⟨?_, by simp, ?_⟩
      · intro c hc
        simp only [List.mem_singleton] at hc
        subst hc
        exact decDigit_isDigit n h10
      · simp [digitsToNat, digitVal_decDigit n h10]
    · have hf : n / 10 < f := by
        have h1 : n / 10 < n := Nat.div_lt_self (by omega) (by omega)
        omega
      obtain ⟨hd, hne, hval⟩ := ih (n / 10) hf
      simp only [natToDecAux, if_neg h10]
      refine ⟨?_, by simp, ?_⟩
      · intro c hc
        rcases List.mem_append.mp hc with h1 | h1
        · exact hd c h1
        · simp only [List.mem_singleton] at h1
          subst h1
          exact decDigit_isDigit _ (Nat.mod_lt _ (by omega))
      · simp only [digitsToNat, List.foldl_append, List.foldl_cons,
          List.foldl_nil]
        simp only [digitsToNat] at hval
        rw [hval, digitVal_decDigit _ (Nat.mod_lt _ (by omega))]
        omega

theorem natToDecList_spec (n : Nat) :
    (∀ c ∈ natToDecList n, c.isDigit = true) ∧ natToDecList n ≠ [] ∧
      digitsToNat (natToDecList n) = n :=
  natToDecAux_spec (n + 1) n (by omega)

theorem takeDigits_app (ds rest : List Char) (hds : ∀ c ∈ ds, c.isDigit = true)
    (hrest : ∀ e, rest.head? = some e → e.isDigit = false) :
    takeDigits (ds ++ rest) = (ds, rest) := by
  induction ds with
  | nil =>
    cases rest with
    | nil => rfl
    | cons e t =>
      have he : e.isDigit = false := hrest e rfl
      simp [takeDigits, he]
  | cons c cs ih =>
    have hc : c.isDigit = true := hds c (by simp)
    have hr := ih (fun x hx => hds x (by simp [hx]))
    simp [takeDigits, hc, hr]

theorem findLast_append_some {α : Type} (m : List Char → Option α)
    (pre S : List Char) (r : α) (h : findLast m S = some r) :
    findLast m (pre ++ S) = some r := by
  induction pre with
  | nil => simpa using h
  | cons x xs ih => simp [findLast, ih]

theorem findLast_append_none_of_no_slash {α : Type} (m : List Char → Option α)
    (hm : ∀ t r, m t = some r → ∃ u, t = '/' :: u)
    (xs b : List Char) (hxs : ∀ c ∈ xs, c ≠ '/')
    (hb : findLast m b = none) : findLast m (xs ++ b) = none := by
  induction xs with
  | nil => simpa using hb
  | cons x xs2 ih =>
    have ih2 := ih (fun c hc => hxs c (by simp [hc]))
    rw [List.cons_append, findLast, ih2]
    show m (x :: (xs2 ++ b)) = none
    cases hmx : m (x :: (xs2 ++ b)) with
    | none => rfl
    | some r =>
      obtain ⟨u, hu⟩ := hm _ _ hmx
      have hx : x = '/' := by
        have := List.head_eq_of_cons_eq hu
        exact this
      exact absurd hx (hxs x (by simp))

theorem lit_expect_pos :
    "//! ERROR(".toList =
      '/' :: '/' :: '!' :: ' ' :: 'E' :: 'R' :: 'R' :: 'O' :: 'R' :: '(' :: [] :=
  rfl

theorem lit_expect_unpos :
    "//! ERROR: ".toList =
      '/' :: '/' :: '!' :: ' ' :: 'E' :: 'R' :: 'R' :: 'O' :: 'R' :: ':' :: ' ' :: [] :=
  rfl

theorem matchExpectPositionedHere_slash (t : List Char) (r : Nat × Nat × String)
    (h : matchExpectPositionedHere t = some r) : ∃ u, t = '/' :: u := by
  cases t with
  | nil =>
    rw [matchExpectPositionedHere, lit_expect_pos] at h
    simp [dropLit] at h
  | cons c u =>
    by_cases hc : c = '/'
    · exact ⟨u, by rw [hc]⟩
    · exfalso
      rw [matchExpectPositionedHere, lit_expect_pos] at h
      have hc2 : ¬ ('/' = c) := fun he => hc he.symm
      simp [dropLit, hc2] at h

theorem matchExpectUnpositionedHere_slash (t : List Char) (r : String)
    (h : matchExpectUnpositionedHere t = some r) : ∃ u, t = '/' :: u := by
  cases t with
  | nil =>
    rw [matchExpectUnpositionedHere, lit_expect_unpos] at h
    simp [dropLit] at h
  | cons c u =>
    by_cases hc : c = '/'
    · exact ⟨u, by rw [hc]⟩
    · exfalso
      rw [matchExpectUnpositionedHere, lit_expect_unpos] at h
      have hc2 : ¬ ('/' = c) := fun he => hc he.symm
      simp [dropLit, hc2] at h

theorem isEmpty_false_of_ne_nil {cs : List Char} (h : cs ≠ []) :
    cs.isEmpty = false := by
  cases cs with
  | nil => exact absurd rfl h
  | cons c t => rfl

theorem matchNumsMsg_built (close : Bool) (ln cl : Nat) (sep : List Char)
    (msg : List Char)
    (hsep : sep = if close then ')' :: ':' :: ' ' :: msg else ':' :: ' ' :: msg) :
    matchNumsMsg close (natToDecList ln ++ ':' :: (natToDecList cl ++ sep)) =
      some (ln, cl, msg.asString) := by
  obtain ⟨hd1, hne1, hv1⟩ := natToDecList_spec ln
  obtain ⟨hd2, hne2, hv2⟩ := natToDecList_spec cl
  have t1 : takeDigits (natToDecList ln ++ ':' :: (natToDecList cl ++ sep)) =
      (natToDecList ln, ':' :: (natToDecList cl ++ sep)) :=
    takeDigits_app _ _ hd1 (by intro e he; injection he with h1; subst h1; rfl)
  have hsephead : ∀ e, sep.head? = some e → e.isDigit = false := by
    intro e he
    cases close <;> simp [hsep] at he <;> subst he <;> rfl
  have t2 : takeDigits (natToDecList cl ++ sep) = (natToDecList cl, sep) :=
    takeDigits_app _ _ hd2 hsephead
  simp only [matchNumsMsg, t1, isEmpty_false_of_ne_nil hne1, Bool.false_eq_true,
    if_false, t2, isEmpty_false_of_ne_nil hne2]
  cases close with
  | true =>
    simp only [hsep, if_true]
    simp [hv1, hv2]
  | false =>
    simp only [hsep, Bool.false_eq_true, if_false]
    simp [hv1, hv2]

theorem matchExpectPositionedHere_built (ln cl : Nat) (msg : List Char) :
    matchExpectPositionedHere ("//! ERROR(".toList ++ (natToDecList ln ++
      ':' :: (natToDecList cl ++ ')' :: ':' :: ' ' :: msg))) =
      some (ln, cl, msg.asString) := by
  rw [matchExpectPositionedHere, dropLit_self_append]
  exact matchNumsMsg_built true ln cl _ msg rfl

theorem matchExpectUnpositionedHere_built (msg : List Char) :
    matchExpectUnpositionedHere ("//! ERROR: ".toList ++ msg) =
      some msg.asString := by
  rw [matchExpectUnpositionedHere, dropLit_self_append]

theorem matchErrorPositioned_built (ln cl : Nat) (msg : List Char) :
    matchErrorPositioned ("Error in line ".toList ++ (natToDecList ln ++
      ':' :: (natToDecList cl ++ ':' :: ' ' :: msg))) =
      some (ln, cl, msg.asString) := by
  rw [matchErrorPositioned, dropLit_self_append]
  exact matchNumsMsg_built false ln cl _ msg rfl

theorem matchErrorUnpositioned_built (msg : List Char) :
    matchErrorUnpositioned ("Error: ".toList ++ msg) = some msg.asString := by
  rw [matchErrorUnpositioned, dropLit_self_append]

theorem matchExpectPositionedHere_slash_bang (t : List Char) :
    matchExpectPositionedHere ('/' :: '!' :: t) = none := by
  rw [matchExpectPositionedHere, lit_expect_pos]
  rw [show dropLit
      ('/' :: '/' :: '!' :: ' ' :: 'E' :: 'R' :: 'R' :: 'O' :: 'R' :: '(' :: [])
      ('/' :: '!' :: t) =
    if '/' = '/' then
      dropLit ('/' :: '!' :: ' ' :: 'E' :: 'R' :: 'R' :: 'O' :: 'R' :: '(' :: [])
        ('!' :: t)
    else none from rfl]
  rw [if_pos rfl]
  rw [show dropLit
      ('/' :: '!' :: ' ' :: 'E' :: 'R' :: 'R' :: 'O' :: 'R' :: '(' :: [])
      ('!' :: t) = if '/' = '!' then dropLit
        ('!' :: ' ' :: 'E' :: 'R' :: 'R' :: 'O' :: 'R' :: '(' :: []) t
      else none from rfl]
  rw [if_neg (by decide)]

theorem matchExpectUnpositionedHere_slash_bang (t : List Char) :
    matchExpectUnpositionedHere ('/' :: '!' :: t) = none := by
  rw [matchExpectUnpositionedHere, lit_expect_unpos]
  rw [show dropLit
      ('/' :: '/' :: '!' :: ' ' :: 'E' :: 'R' :: 'R' :: 'O' :: 'R' :: ':' :: ' ' :: [])
      ('/' :: '!' :: t) =
    if '/' = '/' then
      dropLit ('/' :: '!' :: ' ' :: 'E' :: 'R' :: 'R' :: 'O' :: 'R' :: ':' :: ' ' :: [])
        ('!' :: t)
    else none from rfl]
  rw [if_pos rfl]
  rw [show dropLit
      ('/' :: '!' :: ' ' :: 'E' :: 'R' :: 'R' :: 'O' :: 'R' :: ':' :: ' ' :: [])
      ('!' :: t) = if '/' = '!' then dropLit
        ('!' :: ' ' :: 'E' :: 'R' :: 'R' :: 'O' :: 'R' :: ':' :: ' ' :: []) t
      else none from rfl]
  rw [if_neg (by decide)]


theorem findLast_expect_pos_built (pre : List Char) (ln cl : Nat)
    (msg : List Char)
    (hmsg : findLast matchExpectPositionedHere msg = none) :
    findLast matchExpectPositionedHere (pre ++ "//! ERROR(".toList ++
        (natToDecList ln ++ ':' :: (natToDecList cl ++ ')' :: ':' :: ' ' :: msg))) =
      some (ln, cl, msg.asString) := by
  obtain ⟨hd1, hne1, hv1⟩ := natToDecList_spec ln
  obtain ⟨hd2, hne2, hv2⟩ := natToDecList_spec cl
  have hA : ∀ x ∈ (['!', ' ', 'E', 'R', 'R', 'O', 'R', '('] : List Char),
      x ≠ '/' := by decide
  have hC : ∀ x ∈ ([')', ':', ' '] : List Char), x ≠ '/' := by decide
  have hB : ∀ c ∈ (natToDecList ln ++ ':' :: (natToDecList cl ++ [')', ':', ' '])),
      c ≠ '/' := by
    intro c hc
    rcases List.mem_append.mp hc with h | h
    · exact digit_ne_slash c (hd1 c h)
    · rcases List.mem_cons.mp h with h | h
      · subst h; decide
      · rcases List.mem_append.mp h with h | h
        · exact digit_ne_slash c (hd2 c h)
        · exact hC c h
  have hmid : ∀ c ∈ ((['!', ' ', 'E', 'R', 'R', 'O', 'R', '('] : List Char) ++
      (natToDecList ln ++ ':' :: (natToDecList cl ++ [')', ':', ' ']))), c ≠ '/' :=
    fun c hc => (List.mem_append.mp hc).elim (hA c) (hB c)
  have h1 : findLast matchExpectPositionedHere
      (((['!', ' ', 'E', 'R', 'R', 'O', 'R', '('] : List Char) ++
        (natToDecList ln ++ ':' :: (natToDecList cl ++ [')', ':', ' ']))) ++ msg) =
      none :=
    findLast_append_none_of_no_slash _ matchExpectPositionedHere_slash _ msg
      hmid hmsg
  have h2 : findLast matchExpectPositionedHere
      ('/' :: (((['!', ' ', 'E', 'R', 'R', 'O', 'R', '('] : List Char) ++
        (natToDecList ln ++ ':' :: (natToDecList cl ++ [')', ':', ' ']))) ++ msg)) =
      none := by
    rw [findLast, h1]
    show matchExpectPositionedHere
      ('/' :: (((['!', ' ', 'E', 'R', 'R', 'O', 'R', '('] : List Char) ++
        (natToDecList ln ++ ':' :: (natToDecList cl ++ [')', ':', ' ']))) ++ msg)) =
      none
    exact matchExpectPositionedHere_slash_bang _
  have heq : "//! ERROR(".toList ++ (natToDecList ln ++
      ':' :: (natToDecList cl ++ ')' :: ':' :: ' ' :: msg)) =
      '/' :: '/' :: (((['!', ' ', 'E', 'R', 'R', 'O', 'R', '('] : List Char) ++
        (natToDecList ln ++ ':' :: (natToDecList cl ++ [')', ':', ' ']))) ++ msg) := by
    rw [lit_expect_pos]
    simp [List.append_assoc]
  have h3 : findLast matchExpectPositionedHere
      ('/' :: '/' :: (((['!', ' ', 'E', 'R', 'R', 'O', 'R', '('] : List Char) ++
        (natToDecList ln ++ ':' :: (natToDecList cl ++ [')', ':', ' ']))) ++ msg)) =
      some (ln, cl, msg.asString) := by
    rw [findLast, h2]
    show matchExpectPositionedHere
      ('/' :: '/' :: (((['!', ' ', 'E', 'R', 'R', 'O', 'R', '('] : List Char) ++
        (natToDecList ln ++ ':' :: (natToDecList cl ++ [')', ':', ' ']))) ++ msg)) =
      some (ln, cl, msg.asString)
    rw [← heq]
    exact matchExpectPositionedHere_built ln cl msg
  rw [List.append_assoc, heq]
  exact findLast_append_some _ pre _ _ h3

theorem findLast_expect_unpos_built (pre msg : List Char)
    (hmsg : findLast matchExpectUnpositionedHere msg = none) :
    findLast matchExpectUnpositionedHere (pre ++ "//! ERROR: ".toList ++ msg) =
      some msg.asString := by
  have hA : ∀ x ∈ (['!', ' ', 'E', 'R', 'R', 'O', 'R', ':', ' '] : List Char),
      x ≠ '/' := by decide
  have h1 : findLast matchExpectUnpositionedHere
      ((['!', ' ', 'E', 'R', 'R', 'O', 'R', ':', ' '] : List Char) ++ msg) = none :=
    findLast_append_none_of_no_slash _ matchExpectUnpositionedHere_slash _ msg
      hA hmsg
  have h2 : findLast matchExpectUnpositionedHere
      ('/' :: ((['!', ' ', 'E', 'R', 'R', 'O', 'R', ':', ' '] : List Char) ++ msg)) =
      none := by
    rw [findLast, h1]
    show matchExpectUnpositionedHere
      ('/' :: ((['!', ' ', 'E', 'R', 'R', 'O', 'R', ':', ' '] : List Char) ++ msg)) =
      none
    exact matchExpectUnpositionedHere_slash_bang _
  have heq : "//! ERROR: ".toList ++ msg =
      '/' :: '/' :: ((['!', ' ', 'E', 'R', 'R', 'O', 'R', ':', ' '] : List Char) ++ msg) := by
    rw [lit_expect_unpos]
    simp
  have h3 : findLast matchExpectUnpositionedHere
      ('/' :: '/' :: ((['!', ' ', 'E', 'R', 'R', 'O', 'R', ':', ' '] : List Char) ++ msg)) =
      some msg.asString := by
    rw [findLast, h2]
    show matchExpectUnpositionedHere
      ('/' :: '/' :: ((['!', ' ', 'E', 'R', 'R', 'O', 'R', ':', ' '] : List Char) ++ msg)) =
      some msg.asString
    rw [← heq]
    exact matchExpectUnpositionedHere_built msg
  rw [List.append_assoc, heq]
  exact findLast_append_some _ pre _ _ h3

/-! ## C4: the annotation parser -/

theorem parseExpectationsLines_eq (ls : List String) :
    parseExpectationsLines ls = ls.filterMap expectOfLine := by
  induction ls with
  | nil => rfl
  | cons l rest ih =>
    cases hm : findLast matchExpectPositionedHere l.toList with
    | some r =>
      have hm2 : findLast matchExpectPositionedHere l.data = some r := hm
      simp [parseExpectationsLines, expectOfLine, hm, hm2, ih]
    | none =>
      have hm2 : findLast matchExpectPositionedHere l.data = none := hm
      cases hu : findLast matchExpectUnpositionedHere l.toList with
      | some msg =>
        have hu2 : findLast matchExpectUnpositionedHere l.data = some msg := hu
        simp [parseExpectationsLines, expectOfLine, hm, hm2, hu, hu2, ih]
      | none =>
        have hu2 : findLast matchExpectUnpositionedHere l.data = none := hu
        simp [parseExpectationsLines, expectOfLine, hm, hm2, hu, hu2, ih]

theorem expectOfLine_positioned_built (pre : List Char) (ln cl : Nat)
    (msg : List Char)
    (hmsg : findLast matchExpectPositionedHere msg = none) :
    expectOfLine ((pre ++ "//! ERROR(".toList ++ (natToDecList ln ++
        ':' :: (natToDecList cl ++ ')' :: ':' :: ' ' :: msg))).asString) =
      some ⟨msg.asString, some ln, some cl⟩ := by
  have h := findLast_expect_pos_built pre ln cl msg hmsg
  rw [expectOfLine, List.toList_asString, h]

theorem expectOfLine_unpositioned_built (pre msg : List Char)
    (hpos : findLast matchExpectPositionedHere
      (pre ++ "//! ERROR: ".toList ++ msg) = none)
    (hmsg : findLast matchExpectUnpositionedHere msg = none) :
    expectOfLine ((pre ++ "//! ERROR: ".toList ++ msg).asString) =
      some ⟨msg.asString, none, none⟩ := by
  have h := findLast_expect_unpos_built pre msg hmsg
  rw [expectOfLine, List.toList_asString, hpos, h]

/-- C4: the annotation parser yields at most one expectation per physical
line (`parse_expectations` is the per-line `filterMap` of `expectOfLine`
over the fixture's lines); a line carrying a positioned marker contributes
a diagnostic whose `line`/`col` are the integers written inside the marker
itself, wherever the line sits in the fixture; a line carrying only an
unpositioned marker contributes a diagnostic with both positions absent;
a line carrying no marker contributes nothing; and a fixture with no
markers at all parses to the empty expectation list. -/
theorem parse_expectations_spec (text : String) :
    (parse_expectations text = (pyReadLines text).filterMap expectOfLine)
    ∧ (∀ (pre : List Char) (ln cl : Nat) (msg : List Char),
        findLast matchExpectPositionedHere msg = none →
        expectOfLine ((pre ++ "//! ERROR(".toList ++ (natToDecList ln ++
            ':' :: (natToDecList cl ++ ')' :: ':' :: ' ' :: msg))).asString) =
          some ⟨msg.asString, some ln, some cl⟩)
    ∧ (∀ (pre msg : List Char),
        findLast matchExpectPositionedHere
          (pre ++ "//! ERROR: ".toList ++ msg) = none →
        findLast matchExpectUnpositionedHere msg = none →
        expectOfLine ((pre ++ "//! ERROR: ".toList ++ msg).asString) =
          some ⟨msg.asString, none, none⟩)
    ∧ (∀ l : String, findLast matchExpectPositionedHere l.toList = none →
        findLast matchExpectUnpositionedHere l.toList = none →
        expectOfLine l = none)
    ∧ ((∀ l ∈ pyReadLines text, expectOfLine l = none) →
        parse_expectations text = []) := by
  refine ⟨?_, ?_, ?_, ?_, ?_⟩
  · rw [parse_expectations, parseExpectationsLines_eq]
  · exact fun pre ln cl msg h => expectOfLine_positioned_built pre ln cl msg h
  · exact fun pre msg h1 h2 => expectOfLine_unpositioned_built pre msg h1 h2
  · intro l h1 h2
    rw [expectOfLine, h1, h2]
  · intro h
    rw [parse_expectations, parseExpectationsLines_eq]
    exact List.filterMap_eq_nil_iff.mpr h

theorem parse_expectations_spec_witness :
    expectOfLine (("int x; ".toList ++ "//! ERROR(".toList ++
        (natToDecList 3 ++ ':' :: (natToDecList 5 ++
          ')' :: ':' :: ' ' :: "boom".toList))).asString) =
      some ⟨"boom".toList.asString, some 3, some 5⟩ :=
  (parse_expectations_spec "").2.1 "int x; ".toList 3 5 "boom".toList (by decide)

/-! ## C1: the compile-fail evaluator -/

/-- C1: for a non-skipped compile-fail fixture, exit code 0 is the
`compiling succeeded` failure whatever the annotations say, exit code 101
is the `compiler panicked` failure, and otherwise the verdict is success
exactly when both set differences between actual and expected diagnostics
are empty, the failure carrying those two sets and the joined residual. -/
theorem tests_compile_fail_spec (text : String) (compile : Unit → CompileResult)
    (h : test_is_skip text = false) :
    ((compile ()).exit_code = 0 →
      tests_compile_fail_case text compile =
        CFVerdict.failure none none (compile ()).output
          (some "compiling succeeded"))
    ∧ ((compile ()).exit_code ≠ 0 → (compile ()).exit_code = 101 →
      tests_compile_fail_case text compile =
        CFVerdict.failure none none (compile ()).output
          (some "compiler panicked"))
    ∧ ((compile ()).exit_code ≠ 0 → (compile ()).exit_code ≠ 101 →
      ((tests_compile_fail_case text compile = CFVerdict.success ↔
        ((parse_errors (compile ()).output).1.toFinset \
            (parse_expectations text).toFinset = ∅ ∧
          (parse_expectations text).toFinset \
            (parse_errors (compile ()).output).1.toFinset = ∅))
       ∧ (¬ ((parse_errors (compile ()).output).1.toFinset \
            (parse_expectations text).toFinset = ∅ ∧
          (parse_expectations text).toFinset \
            (parse_errors (compile ()).output).1.toFinset = ∅) →
        tests_compile_fail_case text compile =
          CFVerdict.failure
            (some ((parse_errors (compile ()).output).1.toFinset \
              (parse_expectations text).toFinset))
            (some ((parse_expectations text).toFinset \
              (parse_errors (compile ()).output).1.toFinset))
            (pyJoin "\n" (parse_errors (compile ()).output).2) none))) := by
  have hun : tests_compile_fail_case text compile =
      (if (compile ()).exit_code = 0 then
        CFVerdict.failure none none (compile ()).output
          (some "compiling succeeded")
      else if (compile ()).exit_code = 101 then
        CFVerdict.failure none none (compile ()).output
          (some "compiler panicked")
      else if (parse_errors (compile ()).output).1.toFinset \
            (parse_expectations text).toFinset = ∅ ∧
          (parse_expectations text).toFinset \
            (parse_errors (compile ()).output).1.toFinset = ∅ then
        CFVerdict.success
      else
        CFVerdict.failure
          (some ((parse_errors (compile ()).output).1.toFinset \
            (parse_expectations text).toFinset))
          (some ((parse_expectations text).toFinset \
            (parse_errors (compile ()).output).1.toFinset))
          (pyJoin "\n" (parse_errors (compile ()).output).2) none) := by
    rw [tests_compile_fail_case, h]
    simp only [Bool.false_eq_true, if_false]
  refine ⟨?_, ?_, ?_⟩
  · intro h0
    rw [hun, if_pos h0]
  · intro hne h101
    rw [hun, if_neg hne, if_pos h101]
  · intro hne hne101
    by_cases hse : ((parse_errors (compile ()).output).1.toFinset \
        (parse_expectations text).toFinset = ∅ ∧
      (parse_expectations text).toFinset \
        (parse_errors (compile ()).output).1.toFinset = ∅)
    · constructor
      · rw [hun, if_neg hne, if_neg hne101, if_pos hse]
        simp [hse]
      · intro hcon
        exact absurd hse hcon
    · constructor
      · rw [hun, if_neg hne, if_neg hne101, if_neg hse]
        exact iff_of_false (by simp) hse
      · intro hcon
        rw [hun, if_neg hne, if_neg hne101, if_neg hse]

theorem tests_compile_fail_spec_witness :
    test_is_skip "//! ERROR(3:5): boom" = false
    ∧ tests_compile_fail_case "//! ERROR(3:5): boom"
        (fun _ => ⟨"Error in line 3:5: boom", 1⟩) = CFVerdict.success := by
  have hs := tests_compile_fail_spec "//! ERROR(3:5): boom"
    (fun _ => ⟨"Error in line 3:5: boom", 1⟩) (by decide)
  exact ⟨by decide, (hs.2.2 (by decide) (by decide)).1.mpr (by decide)⟩

/-! ## C5: the run-pass evaluator -/

/-- C5: for a non-skipped run-pass fixture, the verdict is success iff
the output parser finds no diagnostics and the exit code is 0; otherwise
the failure carries all actual diagnostics and the joined residual. -/
theorem tests_run_pass_spec (text : String) (compile : Unit → CompileResult)
    (h : test_is_skip text = false) :
    (tests_run_pass_case text compile = RPVerdict.success ↔
      ((parse_errors (compile ()).output).1 = [] ∧ (compile ()).exit_code = 0))
    ∧ (¬ ((parse_errors (compile ()).output).1 = [] ∧
        (compile ()).exit_code = 0) →
      tests_run_pass_case text compile =
        RPVerdict.failure (parse_errors (compile ()).output).1
          (pyJoin "\n" (parse_errors (compile ()).output).2)) := by
  by_cases hc : ((parse_errors (compile ()).output).1 = [] ∧
      (compile ()).exit_code = 0)
  · constructor
    · simp [tests_run_pass_case, h, hc]
    · intro hcon
      exact absurd hc hcon
  · constructor
    · simp [tests_run_pass_case, h, hc]
    · intro hcon
      simp [tests_run_pass_case, h, hc]

theorem tests_run_pass_spec_witness :
    test_is_skip "fn main()" = false
    ∧ tests_run_pass_case "fn main()" (fun _ => ⟨"Error: boom", 0⟩) =
        RPVerdict.failure [⟨"boom", none, none⟩] "" := by
  have hs := tests_run_pass_spec "fn main()"
    (fun _ => ⟨"Error: boom", 0⟩) (by decide)
  exact ⟨by decide, (hs.2 (by decide)).trans (by decide)⟩

/-! ## C6: skip short-circuits every suite -/

/-- C6: a fixture whose text contains the standalone skip marker (a line
stripping to exactly `//! SKIP`) is skipped in all three suites, and the
verdict does not depend on the compiler at all (`compile` is universally
quantified, so the driver's behaviour — hence its invocation — is
irrelevant on this path). -/
theorem skip_fixture_spec (text : String) (h : test_is_skip text = true) :
    (∀ compile, tests_compile_fail_case text compile = CFVerdict.skipped)
    ∧ (∀ compile, tests_run_pass_case text compile = RPVerdict.skipped)
    ∧ (∀ goldenText compile,
        tests_emit_case text goldenText compile = EmitVerdict.skipped) := by
  refine ⟨fun c => ?_, fun c => ?_, fun g c => ?_⟩
  · simp [tests_compile_fail_case, h]
  · simp [tests_run_pass_case, h]
  · simp [tests_emit_case, h]

theorem skip_fixture_spec_witness :
    tests_compile_fail_case "  //! SKIP\nfn" (fun _ => ⟨"", 0⟩) =
      CFVerdict.skipped
    ∧ tests_run_pass_case "  //! SKIP\nfn" (fun _ => ⟨"", 0⟩) =
        RPVerdict.skipped
    ∧ tests_emit_case "  //! SKIP\nfn" "ir" (fun _ => ⟨"", 0⟩) =
        EmitVerdict.skipped :=
  ⟨(skip_fixture_spec "  //! SKIP\nfn" (by decide)).1 _,
   (skip_fixture_spec "  //! SKIP\nfn" (by decide)).2.1 _,
   (skip_fixture_spec "  //! SKIP\nfn" (by decide)).2.2 _ _⟩

/-! ## C8: the emit (golden-file) evaluator -/

theorem dropWhile_append_of_all (a b : List Char)
    (ha : ∀ c ∈ a, isPyWs c = true) :
    (a ++ b).dropWhile isPyWs = b.dropWhile isPyWs := by
  induction a with
  | nil => rfl
  | cons c cs ih =>
    rw [List.cons_append, List.dropWhile_cons, if_pos (ha c (by simp))]
    exact ih (fun x hx => ha x (by simp [hx]))

theorem dropWhile_append_of_ne_nil (a b : List Char)
    (hne : a.dropWhile isPyWs ≠ []) :
    (a ++ b).dropWhile isPyWs = a.dropWhile isPyWs ++ b := by
  induction a with
  | nil => exact absurd rfl hne
  | cons c cs ih =>
    by_cases hc : isPyWs c = true
    · have hshape : (c :: cs).dropWhile isPyWs = cs.dropWhile isPyWs := by
        rw [List.dropWhile_cons, if_pos hc]
      rw [List.cons_append, List.dropWhile_cons, if_pos hc, hshape]
      exact ih (by rwa [hshape] at hne)
    · have hcf : isPyWs c = false := by
        cases hcc : isPyWs c
        · rfl
        · exact absurd hcc hc
      rw [List.cons_append, List.dropWhile_cons, if_neg (by simp [hcf]),
        List.dropWhile_cons, if_neg (by simp [hcf]), List.cons_append]

theorem pyStripList_pad (a t b : List Char)
    (ha : ∀ c ∈ a, isPyWs c = true) (hb : ∀ c ∈ b, isPyWs c = true) :
    pyStripList (a ++ t ++ b) = pyStripList t := by
  rw [pyStripList, pyStripList, List.append_assoc,
    dropWhile_append_of_all a (t ++ b) ha]
  by_cases hnil : t.dropWhile isPyWs = []
  · have htws : ∀ c ∈ t, isPyWs c = true := by
      intro c hc
      have := List.dropWhile_eq_nil_iff.mp hnil
      simpa using this c hc
    have h1 : (t ++ b).dropWhile isPyWs = [] := by
      rw [dropWhile_append_of_all t b htws]
      rw [List.dropWhile_eq_nil_iff]
      intro x hx
      simpa using hb x hx
    rw [h1, hnil]
  · rw [dropWhile_append_of_ne_nil t b hnil, List.reverse_append,
      dropWhile_append_of_all b.reverse (t.dropWhile isPyWs).reverse
        (fun c hc => hb c (List.mem_reverse.mp hc))]

theorem pyStrip_pad (pre s post : String)
    (hpre : ∀ c ∈ pre.toList, isPyWs c = true)
    (hpost : ∀ c ∈ post.toList, isPyWs c = true) :
    pyStrip (pre ++ s ++ post) = pyStrip s := by
  rw [pyStrip, pyStrip, toList_append, toList_append,
    pyStripList_pad _ _ _ hpre hpost]

/-- C8: for a non-skipped emit fixture, a nonzero exit code is an
immediate `compiling failed` failure; with exit code 0 the verdict is
success iff the stripped output equals the stripped golden text — in
particular an output that is the golden text padded with whitespace
(such as leading or trailing blank lines) succeeds. -/
theorem tests_emit_spec (text goldenText : String)
    (compile : Unit → CompileResult) (h : test_is_skip text = false) :
    ((compile ()).exit_code ≠ 0 →
      tests_emit_case text goldenText compile =
        EmitVerdict.failureCompile (compile ()).output)
    ∧ ((compile ()).exit_code = 0 →
      (tests_emit_case text goldenText compile = EmitVerdict.success ↔
        pyStrip (compile ()).output = pyStrip goldenText))
    ∧ ((compile ()).exit_code = 0 →
      ∀ pre post : String, (∀ c ∈ pre.toList, isPyWs c = true) →
        (∀ c ∈ post.toList, isPyWs c = true) →
        (compile ()).output = pre ++ goldenText ++ post →
        tests_emit_case text goldenText compile = EmitVerdict.success) := by
  refine ⟨?_, ?_, ?_⟩
  · intro hne
    simp [tests_emit_case, h, hne]
  · intro h0
    by_cases he : pyStrip (compile ()).output = pyStrip goldenText
    · simp [tests_emit_case, h, h0, he]
    · simp [tests_emit_case, h, h0, he]
  · intro h0 pre post hpre hpost hout
    have he : pyStrip (compile ()).output = pyStrip goldenText := by
      rw [hout]
      exact pyStrip_pad pre goldenText post hpre hpost
    simp [tests_emit_case, h, h0, he]

theorem tests_emit_spec_witness :
    test_is_skip "fn main()" = false
    ∧ tests_emit_case "fn main()" "ir body"
        (fun _ => ⟨"\n\nir body\n", 0⟩) = EmitVerdict.success := by
  have hs := tests_emit_spec "fn main()" "ir body"
    (fun _ => ⟨"\n\nir body\n", 0⟩) (by decide)
  exact ⟨by decide,
    hs.2.2 (by decide) "\n\n" "\n" (by decide) (by decide) (by decide)⟩

/-! ## C7: round-trip of `__repr__` through the output parser -/

theorem splitlinesGo_append (p : List Char)
    (hp : ∀ c ∈ p, isPyLineBreak c = false) (t acc : List Char) :
    splitlinesGo false (p ++ t) acc = splitlinesGo false t (p.reverse ++ acc) := by
  induction p generalizing acc with
  | nil => simp
  | cons c cs ih =>
    have hc : isPyLineBreak c = false := hp c (by simp)
    have hc2 : c ≠ '\r' := fun he => absurd (he ▸ hc) (by decide)
    have ih2 := ih (fun x hx => hp x (by simp [hx]))
    rw [List.cons_append, splitlinesGo]
    simp only [Bool.false_and, Bool.false_eq_true, if_false, hc, hc2,
      ite_false, ih2]
    simp [List.append_assoc]

theorem pySplitlines_single (p : List Char)
    (hp : ∀ c ∈ p, isPyLineBreak c = false) (hne : p ≠ []) :
    splitlinesGo false p [] = [p.asString] := by
  have h := splitlinesGo_append p hp [] []
  rw [List.append_nil] at h
  rw [h, splitlinesGo]
  rw [List.append_nil]
  rw [if_neg (by simpa [List.isEmpty_iff] using fun he => hne (by
    have := congrArg List.reverse he
    simpa using this))]
  rw [List.reverse_reverse]

theorem getLast?_map_render (items : List (CompilerError ⊕ String)) :
    (items.map renderItem).getLast? = items.getLast?.map renderItem := by
  induction items with
  | nil => rfl
  | cons it rest ih =>
    cases rest with
    | nil => rfl
    | cons it2 rest2 =>
      rw [List.map_cons, List.map_cons, List.getLast?_cons_cons,
        ← List.map_cons, ih, List.getLast?_cons_cons]

theorem splitlinesGo_cons_nl (t acc : List Char) :
    splitlinesGo false ('\n' :: t) acc =
      acc.reverse.asString :: splitlinesGo false t [] := by
  rw [splitlinesGo]
  rw [if_neg (by decide)]
  rw [if_neg (by decide)]
  rw [if_pos (by decide)]

theorem pySplitlines_pyJoin (pieces : List String)
    (h : ∀ p ∈ pieces, noNL p) (hlast : pieces.getLast? ≠ some "") :
    pySplitlines (pyJoin "\n" pieces) = pieces := by
  induction pieces with
  | nil => rfl
  | cons s rest ih =>
    cases rest with
    | nil =>
      have hs : noNL s := h s (by simp)
      have hne : s ≠ "" := by
        intro he
        exact hlast (by simp [he])
      show pySplitlines s = [s]
      rw [pySplitlines]
      have hne2 : s.toList ≠ [] := by
        intro he
        apply hne
        rw [← String.asString_toList s, he]
        rfl
      rw [pySplitlines_single s.toList hs hne2, String.asString_toList]
    | cons t rest2 =>
      have hJ : pyJoin "\n" (s :: t :: rest2) =
          s ++ "\n" ++ pyJoin "\n" (t :: rest2) := rfl
      have hT : (s ++ "\n" ++ pyJoin "\n" (t :: rest2)).toList =
          s.toList ++ '\n' :: (pyJoin "\n" (t :: rest2)).toList := by
        rw [toList_append, toList_append]
        simp
      rw [hJ, pySplitlines, hT,
        splitlinesGo_append s.toList (h s (by simp)) _ [],
        splitlinesGo_cons_nl]
      rw [List.append_nil, List.reverse_reverse, String.asString_toList]
      have ihh := ih (fun p hp => h p (by simp [hp]))
        (by rwa [List.getLast?_cons_cons] at hlast)
      rw [pySplitlines] at ihh
      rw [ihh]

theorem digit_not_break (c : Char) (h : c.isDigit = true) :
    isPyLineBreak c = false := by
  cases hb : isPyLineBreak c
  · rfl
  · exfalso
    simp only [isPyLineBreak, Bool.or_eq_true, decide_eq_true_eq] at hb
    rcases hb with
      ((((((((h1 | h1) | h1) | h1) | h1) | h1) | h1) | h1) | h1) | h1 <;>
      (subst h1; exact absurd h (by decide))

theorem reprStr_positioned (e : String) (ln cl : Nat) (hln : ln ≠ 0)
    (hcl : cl ≠ 0) :
    CompilerError.reprStr ⟨e, some ln, some cl⟩ =
      "Error in line " ++ natToDec ln ++ ":" ++ natToDec cl ++ ": " ++ e := by
  rw [CompilerError.reprStr]
  exact if_pos ⟨hln, hcl⟩

theorem reprStr_positioned_toList (e : String) (ln cl : Nat) (hln : ln ≠ 0)
    (hcl : cl ≠ 0) :
    (CompilerError.reprStr ⟨e, some ln, some cl⟩).toList =
      "Error in line ".toList ++ (natToDecList ln ++
        ':' :: (natToDecList cl ++ ':' :: ' ' :: e.toList)) := by
  rw [reprStr_positioned e ln cl hln hcl]
  simp only [toList_append, natToDec, List.toList_asString]
  rw [show (":" : String).toList = [':'] from rfl,
    show (": " : String).toList = [':', ' '] from rfl]
  simp [List.append_assoc]

theorem reprStr_unpositioned_toList (e : String) (l c : Option Nat)
    (h : pyTruthy l = false ∨ pyTruthy c = false) :
    (CompilerError.reprStr ⟨e, l, c⟩).toList =
      "Error: ".toList ++ e.toList := by
  have hrepr : CompilerError.reprStr ⟨e, l, c⟩ = "Error: " ++ e := by
    cases l with
    | none => rfl
    | some ln =>
      cases c with
      | none => rfl
      | some cl =>
        rcases h with h | h
        · have hln : ln = 0 := by simpa [pyTruthy] using h
          subst hln
          show (if (0 : Nat) ≠ 0 ∧ cl ≠ 0 then
              "Error in line " ++ natToDec 0 ++ ":" ++ natToDec cl ++ ": " ++ e
            else "Error: " ++ e) = "Error: " ++ e
          rw [if_neg (by simp)]
        · have hcl : cl = 0 := by simpa [pyTruthy] using h
          subst hcl
          show (if ln ≠ 0 ∧ (0 : Nat) ≠ 0 then
              "Error in line " ++ natToDec ln ++ ":" ++ natToDec 0 ++ ": " ++ e
            else "Error: " ++ e) = "Error: " ++ e
          rw [if_neg (by simp)]
  rw [hrepr, toList_append]

theorem noNL_reprStr (d : CompilerError) (hd : goodDiag d) :
    noNL d.reprStr := by
  obtain ⟨e, l, c⟩ := d
  obtain ⟨hposition, hnl⟩ := hd
  have hlit1 : ∀ x ∈ "Error in line ".toList, isPyLineBreak x = false := by
    decide
  have hlit2 : ∀ x ∈ "Error: ".toList, isPyLineBreak x = false := by decide
  rcases hposition with ⟨hl, hc⟩ | ⟨hl, hc⟩
  · cases l with
    | none => simp [pyTruthy] at hl
    | some ln =>
      cases c with
      | none => simp [pyTruthy] at hc
      | some cl =>
        have hln : ln ≠ 0 := by simpa [pyTruthy] using hl
        have hcl : cl ≠ 0 := by simpa [pyTruthy] using hc
        intro ch hch
        rw [reprStr_positioned_toList e ln cl hln hcl] at hch
        rcases List.mem_append.mp hch with h | h
        · exact hlit1 ch h
        · rcases List.mem_append.mp h with h | h
          · exact digit_not_break ch ((natToDecList_spec ln).1 ch h)
          · rcases List.mem_cons.mp h with h | h
            · subst h; decide
            · rcases List.mem_append.mp h with h | h
              · exact digit_not_break ch ((natToDecList_spec cl).1 ch h)
              · rcases List.mem_cons.mp h with h | h
                · subst h; decide
                · rcases List.mem_cons.mp h with h | h
                  · subst h; decide
                  · exact hnl ch h
  · subst hl
    subst hc
    intro ch hch
    rw [reprStr_unpositioned_toList e none none (Or.inl rfl)] at hch
    rcases List.mem_append.mp hch with h | h
    · exact hlit2 ch h
    · exact hnl ch h

theorem reprStr_ne_empty (d : CompilerError) : d.reprStr ≠ "" := by
  obtain ⟨e, l, c⟩ := d
  intro he
  have h2 := congrArg String.toList he
  by_cases hgood : pyTruthy l = true ∧ pyTruthy c = true
  · cases l with
    | none => simp [pyTruthy] at hgood
    | some ln =>
      cases c with
      | none => simp [pyTruthy] at hgood
      | some cl =>
        have hln : ln ≠ 0 := by simpa [pyTruthy] using hgood.1
        have hcl : cl ≠ 0 := by simpa [pyTruthy] using hgood.2
        rw [reprStr_positioned_toList e ln cl hln hcl] at h2
        rw [show ("" : String).toList = [] from rfl] at h2
        exact absurd h2 (by simp)
  · have hor : pyTruthy l = false ∨ pyTruthy c = false := by
      by_cases h1 : pyTruthy l = true
      · right
        cases h2 : pyTruthy c
        · rfl
        · exact absurd ⟨h1, h2⟩ hgood
      · left
        cases h2 : pyTruthy l
        · rfl
        · exact absurd h2 h1
    rw [reprStr_unpositioned_toList e l c hor] at h2
    rw [show ("" : String).toList = [] from rfl] at h2
    exact absurd h2 (by simp)

theorem outLineError_reprStr (d : CompilerError) (hd : goodDiag d) :
    outLineError d.reprStr = some d := by
  obtain ⟨e, l, c⟩ := d
  obtain ⟨hposition, hnl⟩ := hd
  rcases hposition with ⟨hl, hc⟩ | ⟨hl, hc⟩
  · cases l with
    | none => simp [pyTruthy] at hl
    | some ln =>
      cases c with
      | none => simp [pyTruthy] at hc
      | some cl =>
        have hln : ln ≠ 0 := by simpa [pyTruthy] using hl
        have hcl : cl ≠ 0 := by simpa [pyTruthy] using hc
        rw [outLineError, reprStr_positioned_toList e ln cl hln hcl,
          matchErrorPositioned_built, String.asString_toList]
  · subst hl
    subst hc
    have hto := reprStr_unpositioned_toList e none none (Or.inl rfl)
    rw [outLineError, hto]
    have hdl : dropLit "Error in line ".toList
        ("Error: ".toList ++ e.toList) = none := by
      rw [show "Error in line ".toList =
          "Error".toList ++ ' ' :: "in line ".toList from rfl,
        show "Error: ".toList ++ e.toList =
          "Error".toList ++ ':' :: (' ' :: e.toList) from rfl]
      exact dropLit_mismatch "Error".toList ' ' ':' _ _ (by decide)
    have hpos : matchErrorPositioned ("Error: ".toList ++ e.toList) = none := by
      rw [matchErrorPositioned, hdl]
    have hun : matchErrorUnpositioned ("Error: ".toList ++ e.toList) =
        some e := by
      rw [matchErrorUnpositioned_built, String.asString_toList]
    rw [hpos, hun]

theorem filterMap_out_render (items : List (CompilerError ⊕ String)) :
    (∀ d, Sum.inl d ∈ items → goodDiag d) →
    (∀ s, Sum.inr s ∈ items → outLineError s = none) →
    (items.map renderItem).filterMap outLineError =
      items.filterMap itemDiag := by
  induction items with
  | nil => intro _ _; rfl
  | cons it rest ih =>
    intro hg hr
    have ih2 := ih (fun d hd => hg d (by simp [hd]))
      (fun s hs => hr s (by simp [hs]))
    cases it with
    | inl d =>
      have hout : outLineError d.reprStr = some d :=
        outLineError_reprStr d (hg d (by simp))
      simp [List.filterMap_cons, renderItem, itemDiag, hout, ih2]
    | inr s =>
      have hout : outLineError s = none := hr s (by simp)
      simp [List.filterMap_cons, renderItem, itemDiag, hout, ih2]

theorem filter_residual_render (items : List (CompilerError ⊕ String)) :
    (∀ d, Sum.inl d ∈ items → goodDiag d) →
    (∀ s, Sum.inr s ∈ items → outLineError s = none) →
    (items.map renderItem).filter (fun l => (outLineError l).isNone) =
      items.filterMap itemResid := by
  induction items with
  | nil => intro _ _; rfl
  | cons it rest ih =>
    intro hg hr
    have ih2 := ih (fun d hd => hg d (by simp [hd]))
      (fun s hs => hr s (by simp [hs]))
    cases it with
    | inl d =>
      have hout : outLineError d.reprStr = some d :=
        outLineError_reprStr d (hg d (by simp))
      simp [List.filter_cons, List.filterMap_cons, renderItem, itemResid,
        hout, ih2]
    | inr s =>
      have hout : outLineError s = none := hr s (by simp)
      simp [List.filter_cons, List.filterMap_cons, renderItem, itemResid,
        hout, ih2]

/-- C7 (amended): formatting a set of diagnostics with `__repr__`,
interleaved with non-diagnostic lines, and feeding the joined text to
`parse_errors` recovers exactly the diagnostics (in order, hence as a
set), with every other line routed to the residual in original order —
provided each diagnostic is faithful for `__repr__` (single-line message,
`line`/`col` both truthy or both absent), each interleaved line is a
single line matching neither diagnostic form, and the interleaving does
not end with an empty non-diagnostic line (which the final `splitlines`
drops). -/
theorem repr_roundtrip_amended (items : List (CompilerError ⊕ String))
    (hg : ∀ d, Sum.inl d ∈ items → goodDiag d)
    (hres : ∀ s, Sum.inr s ∈ items → noNL s ∧ outLineError s = none)
    (hlast : items.getLast? ≠ some (Sum.inr "")) :
    parse_errors (pyJoin "\n" (items.map renderItem)) =
      (items.filterMap itemDiag, items.filterMap itemResid)
    ∧ (parse_errors (pyJoin "\n" (items.map renderItem))).1.toFinset =
        (items.filterMap itemDiag).toFinset := by
  have hsplit : pySplitlines (pyJoin "\n" (items.map renderItem)) =
      items.map renderItem := by
    apply pySplitlines_pyJoin
    · intro p hp
      rcases List.mem_map.mp hp with ⟨it, hit, hrend⟩
      subst hrend
      cases it with
      | inl d => exact noNL_reprStr d (hg d hit)
      | inr s => exact (hres s hit).1
    · rw [getLast?_map_render]
      intro hcon
      cases hlst : items.getLast? with
      | none =>
        rw [hlst] at hcon
        simp at hcon
      | some it =>
        rw [hlst] at hcon
        have hri : renderItem it = "" := by
          simpa using hcon
        cases it with
        | inl d => exact reprStr_ne_empty d hri
        | inr s =>
          apply hlast
          have hs : s = "" := hri
          rw [hlst, hs]
  have hmain : parse_errors (pyJoin "\n" (items.map renderItem)) =
      (items.filterMap itemDiag, items.filterMap itemResid) := by
    rw [parse_errors, hsplit, parseErrorsLines_eq,
      filterMap_out_render items hg (fun s hs => (hres s hs).2),
      filter_residual_render items hg (fun s hs => (hres s hs).2)]
  exact ⟨hmain, by rw [hmain]⟩

theorem repr_roundtrip_amended_witness :
    parse_errors (pyJoin "\n"
      (([Sum.inl ⟨"boom", some 3, some 5⟩, Sum.inr "note",
         Sum.inl ⟨"bad", none, none⟩] : List (CompilerError ⊕ String)).map
        renderItem)) =
      ([⟨"boom", some 3, some 5⟩, ⟨"bad", none, none⟩], ["note"]) := by
  have h := repr_roundtrip_amended
    [Sum.inl ⟨"boom", some 3, some 5⟩, Sum.inr "note",
      Sum.inl ⟨"bad", none, none⟩]
    (by
      intro d hd
      simp only [List.mem_cons, List.not_mem_nil, or_false] at hd
      rcases hd with h | h | h
      · rw [Sum.inl.injEq] at h
        subst h
        decide
      · exact absurd h (by simp)
      · rw [Sum.inl.injEq] at h
        subst h
        decide)
    (by
      intro s hs
      simp only [List.mem_cons, List.not_mem_nil, or_false] at hs
      rcases hs with h | h | h
      · exact absurd h (by simp)
      · rw [Sum.inr.injEq] at h
        subst h
        exact ⟨by decide, by decide⟩
      · exact absurd h (by simp))
    (by decide)
  exact h.1.trans (by decide)

/-- C7 as literally stated fails on the code: a diagnostic whose positions
are present but zero is formatted by `__repr__` in the unpositioned form
and comes back with absent positions; a diagnostic whose message spans two
lines comes back as a different diagnostic plus a residual line; and a
trailing empty interleaved line is dropped rather than routed to the
residual. -/
theorem repr_roundtrip_counterexample :
    (parse_errors (CompilerError.reprStr ⟨"x", some 0, some 0⟩)).1.toFinset ≠
      ({⟨"x", some 0, some 0⟩} : Finset CompilerError)
    ∧ (parse_errors (CompilerError.reprStr ⟨"a\nb", none, none⟩)).1.toFinset ≠
      ({⟨"a\nb", none, none⟩} : Finset CompilerError)
    ∧ (parse_errors (pyJoin "\n"
        (([Sum.inl ⟨"x", some 1, some 2⟩, Sum.inr ""] :
          List (CompilerError ⊕ String)).map renderItem))).2 ≠ [""] := by
  refine ⟨by decide, by decide, by decide⟩
